import Mathlib

/-!
# The playground HTTP to gRPC proxy (`proxy/src/google/proxy.go`)

The program parses two integer flags, and then, in a loop, runs one *attempt*:
it registers a freshly created gateway multiplexer against the local gRPC
endpoint and, when that succeeded, serves HTTP with this multiplexer as handler.
Any error returned by an attempt is logged with `glog.Fatal`, which terminates
the process.

The embedding is a trace semantics.  The two collaborators whose code lives
outside the repository (`gw.RegisterPlaygroundHandlerFromEndpoint` and
`http.ListenAndServe`) are parameters of the model (`World`): each call either
returns `nil`, returns an error, or never returns.  The standard library
pieces the program relies on (`fmt.Sprintf` with the verb `%d`, the `flag`
package, `glog.Fatal`) are modelled after their documented behaviour.
-/

namespace Proxy

/-! ## Values -/

/-- A non-nil Go `error`, identified by the text its `Error()` method yields. -/
structure GoError where
  msg : String
deriving DecidableEq, Repr

/-- The dial options the program can build; `grpc.WithInsecure()` is the only one it uses. -/
inductive DialOption where
  | withInsecure
deriving DecidableEq, Repr

/-- The values of the two flag variables `connectPort` and `listenPort` after `flag.Parse`. -/
structure Flags where
  connectPort : Int
  listenPort : Int
deriving DecidableEq, Repr

/-- The declared defaults: `flag.Int("grpc-port", 50051, ..)` and `flag.Int("http-port", 8081, ..)`. -/
def defaultFlags : Flags :=
  { connectPort := 50051, listenPort := 8081 }

/-- What a call into a collaborator does: it returns an `error` (possibly `nil`), or it
never returns. -/
inductive CallResult where
  | returns (err : Option GoError)
  | blocks
deriving DecidableEq, Repr

/-- The behaviour of the two collaborators.  Contexts and multiplexers are identified by
the number of the attempt that created them, so a behaviour may differ from one attempt
to the next. -/
structure World where
  /-- The call `gw.RegisterPlaygroundHandlerFromEndpoint(ctx, mux, endpoint, opts)`. -/
  register : Nat → Nat → String → List DialOption → CallResult
  /-- The call `http.ListenAndServe(addr, handler)`. -/
  listenAndServe : String → Nat → CallResult

/-- The observable steps of the process, in program order. -/
inductive Event where
  /-- The statement `ctx, cancel := context.WithCancel(ctx)` on the background context. -/
  | withCancel (ctx : Nat)
  /-- The statement `mux := runtime.NewServeMux()`. -/
  | newServeMux (mux : Nat)
  /-- entry into `gw.RegisterPlaygroundHandlerFromEndpoint` -/
  | registerCall (ctx mux : Nat) (endpoint : String) (opts : List DialOption)
  /-- return from `gw.RegisterPlaygroundHandlerFromEndpoint` -/
  | registerReturn (err : Option GoError)
  /-- entry into `http.ListenAndServe` -/
  | serveCall (addr : String) (handler : Nat)
  /-- return from `http.ListenAndServe` -/
  | serveReturn (err : Option GoError)
  /-- the deferred `cancel()` of the attempt's context -/
  | cancel (ctx : Nat)
  /-- the line written by `glog.Fatal` -/
  | fatal (text : String)
  /-- The call `os.Exit(status)`. -/
  | exit (status : Nat)
deriving DecidableEq, Repr

/-- How one call of `run` ends: it returns an `error` to `main`, or it never returns. -/
inductive RunResult where
  | returned (err : Option GoError)
  | blocked
deriving DecidableEq, Repr

/-- How an execution of the process looks after a bounded number of attempts. -/
inductive Outcome where
  /-- the process terminated with this exit status -/
  | exited (status : Nat)
  /-- the process sits in a collaborator call that never returns -/
  | blocked
  /-- the attempts observed so far all returned `nil`; `main` is still looping -/
  | running
  /-- `main` returned normally (exit status 0) -/
  | returned
deriving DecidableEq, Repr

/-! ## `fmt.Sprintf` with the verb `%d` -/

/-- The digit loop of the integer formatter for base 10: digits are produced from the
least significant one and written right to left.  The first argument bounds the number
of iterations. -/
def fmtDigits : Nat → Nat → List Char → List Char
  | 0, u, acc => Char.ofNat (48 + u) :: acc
  | fuel + 1, u, acc =>
    if 10 ≤ u then
      let next := u / 10
      fmtDigits fuel next (Char.ofNat (48 + (u - next * 10)) :: acc)
    else
      Char.ofNat (48 + u) :: acc

/-- The verb `%d` applied to an integer: an optional minus sign, then the decimal digits. -/
def fmtInteger (x : Int) : List Char :=
  let u := x.natAbs
  let ds := fmtDigits u u []
  if x < 0 then '-' :: ds else ds

/-- Rendering of `fmt.Sprintf(lit ++ "%d", x)` for a literal `lit` without verbs. -/
def sprintfD (lit : String) (x : Int) : String :=
  lit ++ String.mk (fmtInteger x)

/-- The decimal rendering of a natural number, as the specification understands it: its
base 10 digits, most significant first. -/
def decimalRendering (n : Nat) : String :=
  String.mk ((Nat.digits 10 n).reverse.map Nat.digitChar)

/-! ## `run` -/

/-- The assignment `connectTo := fmt.Sprintf("localhost:%d", *connectPort)`. -/
def connectTo (fl : Flags) : String :=
  sprintfD "localhost:" fl.connectPort

/-- The assignment `listenAt := fmt.Sprintf(":%d", *listenPort)`. -/
def listenAt (fl : Flags) : String :=
  sprintfD ":" fl.listenPort

/-- One call of `run`, the `k`-th attempt: the events it performs and how it ends.  The
context and the multiplexer created by the attempt carry the attempt's number.  The
deferred `cancel()` runs when `run` returns, on either `return`. -/
def run (fl : Flags) (w : World) (k : Nat) : List Event × RunResult :=
  let ctx := k
  let mux := k
  let opts := [DialOption.withInsecure]
  let setup := [Event.withCancel ctx, Event.newServeMux mux,
    Event.registerCall ctx mux (connectTo fl) opts]
  match w.register ctx mux (connectTo fl) opts with
  | CallResult.blocks => (setup, RunResult.blocked)
  | CallResult.returns (some err) =>
    (setup ++ [Event.registerReturn (some err), Event.cancel ctx], RunResult.returned (some err))
  | CallResult.returns none =>
    let serving := setup ++ [Event.registerReturn none, Event.serveCall (listenAt fl) mux]
    match w.listenAndServe (listenAt fl) mux with
    | CallResult.blocks => (serving, RunResult.blocked)
    | CallResult.returns r =>
      (serving ++ [Event.serveReturn r, Event.cancel ctx], RunResult.returned r)

/-! ## The `flag` package -/

/-- A flag registered by some other package linked into the program (for instance the
flags of `glog`): its name, whether it is a boolean flag, and which values its `Set`
method accepts. -/
structure OtherFlag where
  name : String
  isBool : Bool
  accepts : String → Bool

/-- What the model leaves open about the `flag` package: the integer syntax accepted by
`strconv.ParseInt(s, 0, strconv.IntSize)`, the flags registered by other packages, and the
exit status used when `-h` or `-help` is given (2 in the Go releases contemporary with the
program, 0 in later ones). -/
structure FlagEnv where
  parseInt : String → Option Int
  others : List OtherFlag
  helpStatus : Nat

/-- The result of `parseOne`: a flag was seen and set, or parsing is over (with the
arguments left), or parsing failed and `flag.ExitOnError` exits with the given status. -/
inductive ParseStep where
  | seen (fl : Flags) (rest : List String)
  | done (rest : List String)
  | failed (status : Nat)
deriving DecidableEq, Repr

/-- The result of `flag.Parse`: the flag values and the remaining (positional) arguments,
or an exit of the process. -/
inductive ParseResult where
  | ok (fl : Flags) (rest : List String)
  | exit (status : Nat)
deriving DecidableEq, Repr

/-- The search for the first `=` of a flag argument, from the second character of the name
on: the name before it and the value after it. -/
def splitValue : List Char → List Char × Option (List Char)
  | [] => ([], none)
  | c :: cs =>
    if c = '=' then ([], some cs)
    else ((c :: (splitValue cs).1), (splitValue cs).2)

/-- Splitting `name[=value]`; an equals sign cannot be the first character of the name. -/
def cutName : List Char → List Char × Option (List Char)
  | [] => ([], none)
  | c :: cs => ((c :: (splitValue cs).1), (splitValue cs).2)

/-- The value of a non-boolean flag: the text after `=`, or else the next argument. -/
def takeValue : Option (List Char) → List String → Option (String × List String)
  | some v, rest => some (String.mk v, rest)
  | none, v :: rest => some (v, rest)
  | none, [] => none

/-- Looking a flag name up among the registered flags and setting it.  The two flags of
the program are `grpc-port` and `http-port`, both integer flags. -/
def setFlag (env : FlagEnv) (fl : Flags) (name : String) (value : Option (List Char))
    (rest : List String) : ParseStep :=
  if name = "grpc-port" then
    match takeValue value rest with
    | none => ParseStep.failed 2
    | some (v, rest1) =>
      match env.parseInt v with
      | none => ParseStep.failed 2
      | some n => ParseStep.seen { fl with connectPort := n } rest1
  else if name = "http-port" then
    match takeValue value rest with
    | none => ParseStep.failed 2
    | some (v, rest1) =>
      match env.parseInt v with
      | none => ParseStep.failed 2
      | some n => ParseStep.seen { fl with listenPort := n } rest1
  else
    match env.others.find? (fun o => o.name = name) with
    | none =>
      if name = "help" ∨ name = "h" then ParseStep.failed env.helpStatus
      else ParseStep.failed 2
    | some o =>
      if o.isBool then
        match value with
        | some v => if o.accepts (String.mk v) then ParseStep.seen fl rest else ParseStep.failed 2
        | none => if o.accepts "true" then ParseStep.seen fl rest else ParseStep.failed 2
      else
        match takeValue value rest with
        | none => ParseStep.failed 2
        | some (v, rest1) => if o.accepts v then ParseStep.seen fl rest1 else ParseStep.failed 2

/-- One step of the flag parser, `(*FlagSet).parseOne`: an argument shorter than two
characters or not starting with `-` ends the flags, and so does `--`; a name that is empty
or starts with `-` or `=` is a bad flag; otherwise the flag is looked up and set. -/
def parseOne (env : FlagEnv) (fl : Flags) (args : List String) : ParseStep :=
  match args with
  | [] => ParseStep.done []
  | s :: rest =>
    match s.data with
    | '-' :: c :: tl =>
      if c = '-' ∧ tl = [] then ParseStep.done rest
      else
        match (if c = '-' then tl else c :: tl) with
        | [] => ParseStep.failed 2
        | n0 :: ns =>
          if n0 = '-' ∨ n0 = '=' then ParseStep.failed 2
          else setFlag env fl (String.mk (cutName (n0 :: ns)).1) (cutName (n0 :: ns)).2 rest
    | _ => ParseStep.done (s :: rest)

/-- The loop of `(*FlagSet).Parse` under `flag.ExitOnError`.  Every successful step
consumes an argument, so the bound is never reached when it exceeds the number of
arguments. -/
def parseLoop (env : FlagEnv) : Nat → Flags → List String → ParseResult
  | 0, fl, args => ParseResult.ok fl args
  | fuel + 1, fl, args =>
    match parseOne env fl args with
    | ParseStep.seen fl1 rest => parseLoop env fuel fl1 rest
    | ParseStep.done rest => ParseResult.ok fl rest
    | ParseStep.failed status => ParseResult.exit status

/-- The call `flag.Parse()` on the command line arguments `os.Args[1:]`. -/
def flagParse (env : FlagEnv) (args : List String) : ParseResult :=
  parseLoop env (args.length + 1) defaultFlags args

/-! ## `main` -/

/-- What the model leaves open about `glog`: the exit status of `glog.Fatal`, which differs
between releases of the library (255 or 2) and is never zero. -/
structure Glog where
  fatalStatus : Nat
  fatalStatus_ne_zero : fatalStatus ≠ 0

/-- The `for` loop of `main`, from attempt `k` on, observed for at most `fuel` attempts.
`glog.Fatal(err)` writes the error and exits the process; the deferred `glog.Flush()` of
`main` never runs, because `main` has no return and `os.Exit` skips deferred calls. -/
def mainLoop (gl : Glog) (fl : Flags) (w : World) : Nat → Nat → List Event × Outcome
  | 0, _ => ([], Outcome.running)
  | fuel + 1, k =>
    match run fl w k with
    | (tr, RunResult.blocked) => (tr, Outcome.blocked)
    | (tr, RunResult.returned (some err)) =>
      (tr ++ [Event.fatal err.msg, Event.exit gl.fatalStatus], Outcome.exited gl.fatalStatus)
    | (tr, RunResult.returned none) =>
      ((tr ++ (mainLoop gl fl w fuel (k + 1)).1), (mainLoop gl fl w fuel (k + 1)).2)

/-- The process: `flag.Parse()`, then the loop.  A parse failure exits inside `flag.Parse`,
before the loop is entered. -/
def main (env : FlagEnv) (gl : Glog) (args : List String) (w : World) (fuel : Nat) :
    List Event × Outcome :=
  match flagParse env args with
  | ParseResult.exit status => ([Event.exit status], Outcome.exited status)
  | ParseResult.ok fl _ => mainLoop gl fl w fuel 0

/-! ## Sample instances -/

/-- The value of a string of decimal digits. -/
def digitsValue : List Char → Nat → Option Nat
  | [], acc => some acc
  | c :: cs, acc =>
    if 48 ≤ c.toNat ∧ c.toNat ≤ 57 then digitsValue cs (acc * 10 + (c.toNat - 48)) else none

/-- Decimal numerals without a leading zero. -/
def canonicalDecimal : List Char → Option Nat
  | [] => none
  | ['0'] => some 0
  | '0' :: _ => none
  | cs => digitsValue cs 0

/-- An integer syntax on which all releases of `strconv.ParseInt(s, 0, 64)` agree: an
optional sign followed by a decimal numeral without a leading zero, in the 64 bit range.
Every other spelling is rejected here. -/
def sampleParseInt (s : String) : Option Int :=
  match s.data with
  | '-' :: cs =>
    match canonicalDecimal cs with
    | some n => if n ≤ 2 ^ 63 then some (-(n : Int)) else none
    | none => none
  | '+' :: cs =>
    match canonicalDecimal cs with
    | some n => if n < 2 ^ 63 then some (n : Int) else none
    | none => none
  | cs =>
    match canonicalDecimal cs with
    | some n => if n < 2 ^ 63 then some (n : Int) else none
    | none => none

/-- The spellings accepted by `strconv.ParseBool`. -/
def parseBoolAccepts (s : String) : Bool :=
  decide (s ∈ ["1", "t", "T", "TRUE", "true", "True", "0", "f", "F", "FALSE", "false", "False"])

/-- A flag environment for the examples: two of the flags `glog` registers, the boolean
`logtostderr` and the string flag `log_dir`. -/
def sampleEnv : FlagEnv :=
  { parseInt := sampleParseInt,
    others := [{ name := "logtostderr", isBool := true, accepts := parseBoolAccepts },
               { name := "log_dir", isBool := false, accepts := fun _ => true }],
    helpStatus := 2 }

/-- The `glog` of the releases contemporary with the program: `glog.Fatal` exits with
status 255. -/
def sampleGlog : Glog :=
  { fatalStatus := 255, fatalStatus_ne_zero := by decide }

/-- A world in which registration is refused at every attempt. -/
def refusingWorld : World :=
  { register := fun _ _ _ _ => CallResult.returns (some { msg := "connection refused" }),
    listenAndServe := fun _ _ => CallResult.blocks }

/-- A world in which registration succeeds and the listen address is already in use. -/
def busyPortWorld : World :=
  { register := fun _ _ _ _ => CallResult.returns none,
    listenAndServe := fun _ _ => CallResult.returns (some { msg := "address already in use" }) }

/-- A world in which registration succeeds and the server serves forever. -/
def servingWorld : World :=
  { register := fun _ _ _ _ => CallResult.returns none,
    listenAndServe := fun _ _ => CallResult.blocks }

/-! ## Reading traces -/

/-- Entries into the registration collaborator. -/
def Event.isRegisterCall : Event → Bool
  | Event.registerCall _ _ _ _ => true
  | _ => false

/-- Entries into the HTTP server. -/
def Event.isServeCall : Event → Bool
  | Event.serveCall _ _ => true
  | _ => false

/-- Creations of a multiplexer. -/
def Event.isNewServeMux : Event → Bool
  | Event.newServeMux _ => true
  | _ => false

/-- Releases of a cancellation signal. -/
def Event.isCancel : Event → Bool
  | Event.cancel _ => true
  | _ => false

/-- The traces of the `n` attempts `k`, `k + 1`, ..., one after the other. -/
def attemptsTrace (fl : Flags) (w : World) : Nat → Nat → List Event
  | _, 0 => []
  | k, n + 1 => (run fl w k).1 ++ attemptsTrace fl w (k + 1) n

/-- The states of the attempt state machine of the specification. -/
inductive Phase where
  | connecting
  | serving
  | failed
deriving DecidableEq, Repr

/-- The state an event enters: `CONNECTING` on entry into registration, `SERVING` on entry
into the HTTP server, `FAILED` on process exit. -/
def phaseOf : Event → Option Phase
  | Event.registerCall _ _ _ _ => some Phase.connecting
  | Event.serveCall _ _ => some Phase.serving
  | Event.exit _ => some Phase.failed
  | _ => none

/-- The sequence of states an execution goes through. -/
def phases (tr : List Event) : List Phase :=
  tr.filterMap phaseOf

/-- Whether an argument has the form of the flag `f`: `-f`, `--f`, `-f=value` or
`--f=value`. -/
def givesFlag (f : String) (a : String) : Bool :=
  match a.data with
  | '-' :: '-' :: t => decide (t = f.data) || decide (t.take (f.data.length + 1) = f.data ++ ['='])
  | '-' :: t => decide (t = f.data) || decide (t.take (f.data.length + 1) = f.data ++ ['='])
  | _ => false

/-- A world in which registration succeeds and the serve call returns `nil` at once. -/
def idleWorld : World :=
  { register := fun _ _ _ _ => CallResult.returns none,
    listenAndServe := fun _ _ => CallResult.returns none }

/-! ## The shape of an attempt -/

theorem run_cases (fl : Flags) (w : World) (k : Nat) :
    (w.register k k (connectTo fl) [DialOption.withInsecure] = CallResult.blocks ∧
      run fl w k = ([Event.withCancel k, Event.newServeMux k,
        Event.registerCall k k (connectTo fl) [DialOption.withInsecure]], RunResult.blocked)) ∨
    (∃ e, w.register k k (connectTo fl) [DialOption.withInsecure] = CallResult.returns (some e) ∧
      run fl w k = ([Event.withCancel k, Event.newServeMux k,
        Event.registerCall k k (connectTo fl) [DialOption.withInsecure],
        Event.registerReturn (some e), Event.cancel k], RunResult.returned (some e))) ∨
    (w.register k k (connectTo fl) [DialOption.withInsecure] = CallResult.returns none ∧
      w.listenAndServe (listenAt fl) k = CallResult.blocks ∧
      run fl w k = ([Event.withCancel k, Event.newServeMux k,
        Event.registerCall k k (connectTo fl) [DialOption.withInsecure],
        Event.registerReturn none, Event.serveCall (listenAt fl) k], RunResult.blocked)) ∨
    (∃ r, w.register k k (connectTo fl) [DialOption.withInsecure] = CallResult.returns none ∧
      w.listenAndServe (listenAt fl) k = CallResult.returns r ∧
      run fl w k = ([Event.withCancel k, Event.newServeMux k,
        Event.registerCall k k (connectTo fl) [DialOption.withInsecure],
        Event.registerReturn none, Event.serveCall (listenAt fl) k,
        Event.serveReturn r, Event.cancel k], RunResult.returned r)) := by
  unfold run
  cases hr : w.register k k (connectTo fl) [DialOption.withInsecure] with
  | blocks => simp [hr]
  | returns r =>
    cases r with
    | some e => simp [hr]
    | none =>
      cases hs : w.listenAndServe (listenAt fl) k with
      | blocks => simp [hr, hs]
      | returns r => simp [hr, hs]

/-- C1: in one attempt the HTTP serve call is entered only after registration was entered
and has returned `nil` in that same attempt; and when registration returns an error `e`,
`run` returns exactly `e` and the serve call is never entered. -/
theorem c1_serve_only_after_registration (fl : Flags) (w : World) (k : Nat) :
    (∀ pre addr h post, (run fl w k).1 = pre ++ Event.serveCall addr h :: post →
      Event.registerCall k k (connectTo fl) [DialOption.withInsecure] ∈ pre ∧
      Event.registerReturn none ∈ pre ∧ ∀ e, Event.registerReturn (some e) ∉ pre) ∧
    (∀ e, w.register k k (connectTo fl) [DialOption.withInsecure] = CallResult.returns (some e) →
      (run fl w k).2 = RunResult.returned (some e) ∧
      ∀ addr h, Event.serveCall addr h ∉ (run fl w k).1) := by
  constructor
  · intro pre addr h post hd
    rcases run_cases fl w k with ⟨_, h1⟩ | ⟨e, _, h1⟩ | ⟨_, _, h1⟩ | ⟨r, _, _, h1⟩ <;>
      rw [h1] at hd <;> simp [List.cons_eq_append_iff] at hd
    · obtain ⟨_, rfl, _, rfl, _, rfl, _, rfl, rfl, _, _⟩ := hd
      simp
    · obtain ⟨_, rfl, _, rfl, _, rfl, _, rfl, rfl, _, _⟩ := hd
      simp
  · intro e he
    rcases run_cases fl w k with ⟨h0, _⟩ | ⟨e1, h0, h1⟩ | ⟨h0, _, _⟩ | ⟨r, h0, _, _⟩ <;>
      rw [h0] at he <;> simp at he
    subst he
    rw [h1]
    simp

/-- Witness for C1, at the default ports: a refused registration, and a successful one
followed by serving. -/
theorem c1_serve_only_after_registration_witness :
    ((run defaultFlags refusingWorld 0).2 = RunResult.returned (some { msg := "connection refused" }) ∧
      ∀ addr h, Event.serveCall addr h ∉ (run defaultFlags refusingWorld 0).1) ∧
    (Event.registerCall 0 0 (connectTo defaultFlags) [DialOption.withInsecure] ∈
        [Event.withCancel 0, Event.newServeMux 0,
          Event.registerCall 0 0 "localhost:50051" [DialOption.withInsecure],
          Event.registerReturn none] ∧
      Event.registerReturn none ∈
        [Event.withCancel 0, Event.newServeMux 0,
          Event.registerCall 0 0 "localhost:50051" [DialOption.withInsecure],
          Event.registerReturn none] ∧
      ∀ e, Event.registerReturn (some e) ∉
        [Event.withCancel 0, Event.newServeMux 0,
          Event.registerCall 0 0 "localhost:50051" [DialOption.withInsecure],
          Event.registerReturn none]) :=
  ⟨(c1_serve_only_after_registration defaultFlags refusingWorld 0).2
      { msg := "connection refused" } (by decide),
    (c1_serve_only_after_registration defaultFlags servingWorld 0).1
      [Event.withCancel 0, Event.newServeMux 0,
        Event.registerCall 0 0 "localhost:50051" [DialOption.withInsecure],
        Event.registerReturn none] ":8081" 0 [] (by decide)⟩

/-- C6: an attempt creates exactly one multiplexer, which no other attempt creates; it
enters registration exactly once, with the attempt's own context, that multiplexer, the
local gRPC address and the option list consisting of the insecure option alone; it enters
the HTTP server at most once, and only with that same multiplexer as handler, on the
listen address, after registration returned `nil`. -/
theorem c6_one_mux_one_registration (fl : Flags) (w : World) (k : Nat) :
    (run fl w k).1.countP Event.isNewServeMux = 1 ∧
    Event.newServeMux k ∈ (run fl w k).1 ∧
    (∀ j, j ≠ k → Event.newServeMux k ∉ (run fl w j).1) ∧
    Event.withCancel k ∈ (run fl w k).1 ∧
    (run fl w k).1.countP Event.isRegisterCall = 1 ∧
    Event.registerCall k k (connectTo fl) [DialOption.withInsecure] ∈ (run fl w k).1 ∧
    (run fl w k).1.countP Event.isServeCall ≤ 1 ∧
    (∀ addr h, Event.serveCall addr h ∈ (run fl w k).1 →
      h = k ∧ addr = listenAt fl ∧ Event.registerReturn none ∈ (run fl w k).1) := by
  refine ⟨?_, ?_, ?_, ?_, ?_, ?_, ?_, ?_⟩
  · rcases run_cases fl w k with ⟨_, h1⟩ | ⟨e, _, h1⟩ | ⟨_, _, h1⟩ | ⟨r, _, _, h1⟩ <;>
      rw [h1] <;> simp [List.countP_cons, Event.isNewServeMux]
  · rcases run_cases fl w k with ⟨_, h1⟩ | ⟨e, _, h1⟩ | ⟨_, _, h1⟩ | ⟨r, _, _, h1⟩ <;>
      rw [h1] <;> simp
  · intro j hj
    rcases run_cases fl w j with ⟨_, h1⟩ | ⟨e, _, h1⟩ | ⟨_, _, h1⟩ | ⟨r, _, _, h1⟩ <;>
      rw [h1] <;> simp <;> omega
  · rcases run_cases fl w k with ⟨_, h1⟩ | ⟨e, _, h1⟩ | ⟨_, _, h1⟩ | ⟨r, _, _, h1⟩ <;>
      rw [h1] <;> simp
  · rcases run_cases fl w k with ⟨_, h1⟩ | ⟨e, _, h1⟩ | ⟨_, _, h1⟩ | ⟨r, _, _, h1⟩ <;>
      rw [h1] <;> simp [List.countP_cons, Event.isRegisterCall]
  · rcases run_cases fl w k with ⟨_, h1⟩ | ⟨e, _, h1⟩ | ⟨_, _, h1⟩ | ⟨r, _, _, h1⟩ <;>
      rw [h1] <;> simp
  · rcases run_cases fl w k with ⟨_, h1⟩ | ⟨e, _, h1⟩ | ⟨_, _, h1⟩ | ⟨r, _, _, h1⟩ <;>
      rw [h1] <;> simp [List.countP_cons, Event.isServeCall]
  · intro addr h hm
    rcases run_cases fl w k with ⟨_, h1⟩ | ⟨e, _, h1⟩ | ⟨_, _, h1⟩ | ⟨r, _, _, h1⟩ <;>
      rw [h1] at hm ⊢ <;> simp at hm ⊢ <;> simp [hm]

/-- Witness for C6: the attempt that serves on the default ports. -/
theorem c6_one_mux_one_registration_witness :
    (0 : Nat) = 0 ∧ ":8081" = listenAt defaultFlags ∧
      Event.registerReturn none ∈ (run defaultFlags servingWorld 0).1 :=
  (c6_one_mux_one_registration defaultFlags servingWorld 0).2.2.2.2.2.2.2 ":8081" 0 (by decide)

/-- C7: whenever an attempt ends (registration returned an error, or registration returned
`nil` and the serve call returned, with or without error), `run` returns the collaborator's
result and the cancellation signal of the attempt's context is released exactly once, as
the last step of the attempt: after registration has returned and, when the server was
entered, after the serve call has returned.  An attempt that never ends releases nothing. -/
theorem c7_cancel_once_when_attempt_ends (fl : Flags) (w : World) (k : Nat) :
    (∀ r, (w.register k k (connectTo fl) [DialOption.withInsecure] = CallResult.returns r ∧
          r ≠ none) ∨
        (w.register k k (connectTo fl) [DialOption.withInsecure] = CallResult.returns none ∧
          w.listenAndServe (listenAt fl) k = CallResult.returns r) →
      (run fl w k).2 = RunResult.returned r ∧
      (run fl w k).1.countP Event.isCancel = 1 ∧
      ∃ pre, (run fl w k).1 = pre ++ [Event.cancel k] ∧
        (∀ c, Event.cancel c ∉ pre) ∧
        (∃ r0, Event.registerReturn r0 ∈ pre) ∧
        (∀ addr h, Event.serveCall addr h ∈ pre → Event.serveReturn r ∈ pre)) ∧
    ((run fl w k).2 = RunResult.blocked → ∀ c, Event.cancel c ∉ (run fl w k).1) := by
  constructor
  · intro r hr
    rcases run_cases fl w k with ⟨h0, h1⟩ | ⟨e, h0, h1⟩ | ⟨h0, hs, h1⟩ | ⟨r1, h0, hs, h1⟩
    · rcases hr with ⟨hr, _⟩ | ⟨hr, _⟩ <;> rw [h0] at hr <;> simp at hr
    · rcases hr with ⟨hr, _⟩ | ⟨hr, _⟩ <;> rw [h0] at hr <;> simp at hr
      subst hr
      rw [h1]
      refine ⟨rfl, by simp [List.countP_cons, Event.isCancel],
        [Event.withCancel k, Event.newServeMux k,
          Event.registerCall k k (connectTo fl) [DialOption.withInsecure],
          Event.registerReturn (some e)], by simp, by simp, ⟨some e, by simp⟩, by simp⟩
    · rcases hr with ⟨hr, hn⟩ | ⟨_, hr⟩
      · rw [h0] at hr
        simp at hr
        exact absurd hr.symm hn
      · rw [hs] at hr
        simp at hr
    · rcases hr with ⟨hr, hn⟩ | ⟨_, hr⟩
      · rw [h0] at hr
        simp at hr
        exact absurd hr.symm hn
      · rw [hs] at hr
        simp at hr
        subst hr
        rw [h1]
        refine ⟨rfl, by simp [List.countP_cons, Event.isCancel],
          [Event.withCancel k, Event.newServeMux k,
            Event.registerCall k k (connectTo fl) [DialOption.withInsecure],
            Event.registerReturn none, Event.serveCall (listenAt fl) k,
            Event.serveReturn r1], by simp, by simp, ⟨none, by simp⟩, by simp⟩
  · intro hb c
    rcases run_cases fl w k with ⟨_, h1⟩ | ⟨e, _, h1⟩ | ⟨_, _, h1⟩ | ⟨r, _, _, h1⟩ <;>
      rw [h1] at hb ⊢ <;> simp at hb ⊢

/-- Witness for C7: the three ways an attempt ends, and an attempt that never ends. -/
theorem c7_cancel_once_when_attempt_ends_witness :
    ((run defaultFlags refusingWorld 0).2 = RunResult.returned (some { msg := "connection refused" }) ∧
      (run defaultFlags refusingWorld 0).1.countP Event.isCancel = 1 ∧
      ∃ pre, (run defaultFlags refusingWorld 0).1 = pre ++ [Event.cancel 0] ∧
        (∀ c, Event.cancel c ∉ pre) ∧
        (∃ r0, Event.registerReturn r0 ∈ pre) ∧
        (∀ addr h, Event.serveCall addr h ∈ pre →
          Event.serveReturn (some { msg := "connection refused" }) ∈ pre)) ∧
    ((run defaultFlags busyPortWorld 0).2 =
        RunResult.returned (some { msg := "address already in use" }) ∧
      (run defaultFlags busyPortWorld 0).1.countP Event.isCancel = 1 ∧
      ∃ pre, (run defaultFlags busyPortWorld 0).1 = pre ++ [Event.cancel 0] ∧
        (∀ c, Event.cancel c ∉ pre) ∧
        (∃ r0, Event.registerReturn r0 ∈ pre) ∧
        (∀ addr h, Event.serveCall addr h ∈ pre →
          Event.serveReturn (some { msg := "address already in use" }) ∈ pre)) ∧
    (∀ c, Event.cancel c ∉ (run defaultFlags servingWorld 0).1) :=
  ⟨(c7_cancel_once_when_attempt_ends defaultFlags refusingWorld 0).1 _
      (Or.inl ⟨by decide, by decide⟩),
    (c7_cancel_once_when_attempt_ends defaultFlags busyPortWorld 0).1 _
      (Or.inr ⟨by decide, by decide⟩),
    (c7_cancel_once_when_attempt_ends defaultFlags servingWorld 0).2 (by decide)⟩

/-! ## The loop of `main` -/

theorem mainLoop_error (gl : Glog) (fl : Flags) (w : World) (fuel k : Nat) (e : GoError)
    (h : (run fl w k).2 = RunResult.returned (some e)) :
    mainLoop gl fl w (fuel + 1) k =
      ((run fl w k).1 ++ [Event.fatal e.msg, Event.exit gl.fatalStatus],
        Outcome.exited gl.fatalStatus) := by
  rw [mainLoop]
  rcases hrun : run fl w k with ⟨tr, res⟩
  rw [hrun] at h
  simp only at h
  subst h
  rfl

theorem mainLoop_nil (gl : Glog) (fl : Flags) (w : World) (fuel k : Nat)
    (h : (run fl w k).2 = RunResult.returned none) :
    mainLoop gl fl w (fuel + 1) k =
      ((run fl w k).1 ++ (mainLoop gl fl w fuel (k + 1)).1, (mainLoop gl fl w fuel (k + 1)).2) := by
  rw [mainLoop]
  rcases hrun : run fl w k with ⟨tr, res⟩
  rw [hrun] at h
  simp only at h
  subst h
  rfl

theorem mainLoop_blocked (gl : Glog) (fl : Flags) (w : World) (fuel k : Nat)
    (h : (run fl w k).2 = RunResult.blocked) :
    mainLoop gl fl w (fuel + 1) k = ((run fl w k).1, Outcome.blocked) := by
  rw [mainLoop]
  rcases hrun : run fl w k with ⟨tr, res⟩
  rw [hrun] at h
  simp only at h
  subst h
  rfl

theorem mainLoop_after_nil_attempts (gl : Glog) (fl : Flags) (w : World) (n : Nat) :
    ∀ k m, (∀ j, k ≤ j → j < k + n → (run fl w j).2 = RunResult.returned none) →
      mainLoop gl fl w (n + m) k =
        (attemptsTrace fl w k n ++ (mainLoop gl fl w m (k + n)).1, (mainLoop gl fl w m (k + n)).2) := by
  induction n with
  | zero => intro k m _; simp [attemptsTrace]
  | succ n ih =>
    intro k m h
    have hk : (run fl w k).2 = RunResult.returned none := h k (le_refl k) (by omega)
    have e1 : n + 1 + m = (n + m) + 1 := by omega
    rw [e1, mainLoop_nil gl fl w (n + m) k hk, ih (k + 1) m (fun j h1 h2 => h j (by omega) (by omega))]
    have e2 : k + 1 + n = k + (n + 1) := by omega
    simp [attemptsTrace, e2]

theorem run_result_of_error (fl : Flags) (w : World) (k : Nat) (e : GoError)
    (h : w.register k k (connectTo fl) [DialOption.withInsecure] = CallResult.returns (some e) ∨
      (w.register k k (connectTo fl) [DialOption.withInsecure] = CallResult.returns none ∧
        w.listenAndServe (listenAt fl) k = CallResult.returns (some e))) :
    (run fl w k).2 = RunResult.returned (some e) := by
  rcases run_cases fl w k with ⟨h0, h1⟩ | ⟨e1, h0, h1⟩ | ⟨h0, hs, h1⟩ | ⟨r1, h0, hs, h1⟩ <;>
    rcases h with h | ⟨h, h2⟩ <;> rw [h0] at h <;> simp at h
  · subst h
    rw [h1]
  · rw [hs] at h2
    simp at h2
  · rw [hs] at h2
    simp at h2
    subst h2
    rw [h1]

/-- C3: when an error `e` arises in an attempt that `main` reaches, from registration or
from the serve call, `run` returns `e` itself, and the execution of `main` consists of the
attempts up to this one followed by the fatal log line carrying the message of `e` and the
exit of the process with the exit status of `glog.Fatal`, which is not zero: no attempt
follows the error. -/
theorem c3_error_is_fatal_no_retry (env : FlagEnv) (gl : Glog) (args : List String) (w : World)
    (fl : Flags) (rest : List String) (k : Nat) (e : GoError)
    (hparse : flagParse env args = ParseResult.ok fl rest)
    (hreach : ∀ j, j < k → (run fl w j).2 = RunResult.returned none)
    (herr : w.register k k (connectTo fl) [DialOption.withInsecure] = CallResult.returns (some e) ∨
      (w.register k k (connectTo fl) [DialOption.withInsecure] = CallResult.returns none ∧
        w.listenAndServe (listenAt fl) k = CallResult.returns (some e))) :
    (run fl w k).2 = RunResult.returned (some e) ∧
    ∀ fuel, k < fuel →
      main env gl args w fuel =
        (attemptsTrace fl w 0 k ++ (run fl w k).1 ++
            [Event.fatal e.msg, Event.exit gl.fatalStatus],
          Outcome.exited gl.fatalStatus) ∧
      gl.fatalStatus ≠ 0 := by
  have hres := run_result_of_error fl w k e herr
  refine ⟨hres, fun fuel hf => ⟨?_, gl.fatalStatus_ne_zero⟩⟩
  obtain ⟨m, rfl⟩ : ∃ m, fuel = k + (m + 1) := ⟨fuel - k - 1, by omega⟩
  unfold main
  rw [hparse]
  simp only
  rw [mainLoop_after_nil_attempts gl fl w k 0 (m + 1) (fun j _ h2 => hreach j (by omega))]
  simp [mainLoop_error gl fl w m k e hres]

/-- Witness for C3: registration is refused on the ports 9000 and 9090. -/
theorem c3_error_is_fatal_no_retry_witness :
    (run { connectPort := 9000, listenPort := 9090 } refusingWorld 0).2 =
        RunResult.returned (some { msg := "connection refused" }) ∧
    ∀ fuel, 0 < fuel →
      main sampleEnv sampleGlog ["--grpc-port=9000", "--http-port=9090"] refusingWorld fuel =
        (attemptsTrace { connectPort := 9000, listenPort := 9090 } refusingWorld 0 0 ++
            (run { connectPort := 9000, listenPort := 9090 } refusingWorld 0).1 ++
            [Event.fatal "connection refused", Event.exit 255],
          Outcome.exited 255) ∧
      (255 : Nat) ≠ 0 :=
  c3_error_is_fatal_no_retry sampleEnv sampleGlog ["--grpc-port=9000", "--http-port=9090"] refusingWorld
    { connectPort := 9000, listenPort := 9090 } [] 0 { msg := "connection refused" }
    (by decide) (fun j hj => absurd hj (Nat.not_lt_zero j)) (Or.inl (by decide))

/-- Counterexample for C8: with registration refused at every attempt, and room for five
attempts, the process makes one attempt and exits; it never begins a second one. -/
theorem c8_counterexample :
    main sampleEnv sampleGlog [] refusingWorld 5 =
      ([Event.withCancel 0, Event.newServeMux 0,
        Event.registerCall 0 0 "localhost:50051" [DialOption.withInsecure],
        Event.registerReturn (some { msg := "connection refused" }), Event.cancel 0,
        Event.fatal "connection refused", Event.exit 255], Outcome.exited 255) ∧
    ¬ ∃ fuel, Event.withCancel 1 ∈ (main sampleEnv sampleGlog [] refusingWorld fuel).1 := by
  refine ⟨by decide, ?_⟩
  rintro ⟨fuel, h⟩
  cases fuel with
  | zero => revert h; decide
  | succ n =>
    have h1 : main sampleEnv sampleGlog [] refusingWorld (n + 1) = main sampleEnv sampleGlog [] refusingWorld 1 := rfl
    rw [h1] at h
    revert h
    decide

/-- C8, amended: when the registration of an attempt fails, the process does not restart.
The attempt ends with the release of its context, `main` writes the fatal log line and the
process exits with the exit status of `glog.Fatal`, which is not zero, whatever room is
left for further attempts; no step of a following attempt occurs.  `main` goes round its loop only after an attempt that returned
`nil`. -/
theorem c8_setup_failure_ends_process (gl : Glog) (fl : Flags) (w : World) (k fuel : Nat) :
    (∀ e, w.register k k (connectTo fl) [DialOption.withInsecure] = CallResult.returns (some e) →
      mainLoop gl fl w (fuel + 1) k =
        ([Event.withCancel k, Event.newServeMux k,
          Event.registerCall k k (connectTo fl) [DialOption.withInsecure],
          Event.registerReturn (some e), Event.cancel k,
          Event.fatal e.msg, Event.exit gl.fatalStatus], Outcome.exited gl.fatalStatus) ∧
      gl.fatalStatus ≠ 0 ∧
      ∀ j, Event.withCancel (k + 1 + j) ∉ (mainLoop gl fl w (fuel + 1) k).1) ∧
    (Event.withCancel (k + 1) ∈ (mainLoop gl fl w (fuel + 2) k).1 →
      (run fl w k).2 = RunResult.returned none) := by
  constructor
  · intro e he
    have hres := run_result_of_error fl w k e (Or.inl he)
    have hrun : (run fl w k).1 = [Event.withCancel k, Event.newServeMux k,
        Event.registerCall k k (connectTo fl) [DialOption.withInsecure],
        Event.registerReturn (some e), Event.cancel k] := by
      rcases run_cases fl w k with ⟨h0, h1⟩ | ⟨e1, h0, h1⟩ | ⟨h0, hs, h1⟩ | ⟨r1, h0, hs, h1⟩ <;>
        rw [h0] at he <;> simp at he
      subst he
      rw [h1]
    rw [mainLoop_error gl fl w fuel k e hres, hrun]
    refine ⟨by simp, gl.fatalStatus_ne_zero, fun j => ?_⟩
    simp
    omega
  · intro hm
    rcases hres : (run fl w k).2 with r | _
    · cases r with
      | none => rfl
      | some e =>
        exfalso
        rw [mainLoop_error gl fl w (fuel + 1) k e hres] at hm
        rcases run_cases fl w k with ⟨_, h1⟩ | ⟨e, _, h1⟩ | ⟨_, _, h1⟩ | ⟨r, _, _, h1⟩ <;>
          rw [h1] at hm <;> simp at hm
    · exfalso
      rw [mainLoop_blocked gl fl w (fuel + 1) k hres] at hm
      rcases run_cases fl w k with ⟨_, h1⟩ | ⟨e, _, h1⟩ | ⟨_, _, h1⟩ | ⟨r, _, _, h1⟩ <;>
        rw [h1] at hm <;> simp at hm

/-- Witness for C8 (amended): a refused registration on the default ports, and an attempt
that returned `nil` before the second attempt began. -/
theorem c8_setup_failure_ends_process_witness :
    (mainLoop sampleGlog defaultFlags refusingWorld (4 + 1) 0 =
        ([Event.withCancel 0, Event.newServeMux 0,
          Event.registerCall 0 0 (connectTo defaultFlags) [DialOption.withInsecure],
          Event.registerReturn (some { msg := "connection refused" }), Event.cancel 0,
          Event.fatal "connection refused", Event.exit 255], Outcome.exited 255) ∧
      sampleGlog.fatalStatus ≠ 0 ∧
      ∀ j, Event.withCancel (0 + 1 + j) ∉
        (mainLoop sampleGlog defaultFlags refusingWorld (4 + 1) 0).1) ∧
    (run defaultFlags idleWorld 0).2 = RunResult.returned none :=
  ⟨(c8_setup_failure_ends_process sampleGlog defaultFlags refusingWorld 0 4).1
      { msg := "connection refused" } (by decide),
    (c8_setup_failure_ends_process sampleGlog defaultFlags idleWorld 0 0).2 (by decide)⟩

theorem main_single_attempt (env : FlagEnv) (gl : Glog) (args : List String) (w : World) (fuel : Nat)
    (hserve : ∀ addr h, w.listenAndServe addr h ≠ CallResult.returns none) :
    (∃ s, (main env gl args w fuel).1 = [Event.exit s]) ∨
    (main env gl args w fuel).1 = [] ∨
    (∃ c, (main env gl args w fuel).1 = [Event.withCancel 0, Event.newServeMux 0,
      Event.registerCall 0 0 c [DialOption.withInsecure]]) ∨
    (∃ c e, (main env gl args w fuel).1 = [Event.withCancel 0, Event.newServeMux 0,
      Event.registerCall 0 0 c [DialOption.withInsecure], Event.registerReturn (some e),
      Event.cancel 0, Event.fatal e.msg, Event.exit gl.fatalStatus]) ∨
    (∃ c l, (main env gl args w fuel).1 = [Event.withCancel 0, Event.newServeMux 0,
      Event.registerCall 0 0 c [DialOption.withInsecure], Event.registerReturn none,
      Event.serveCall l 0]) ∨
    (∃ c l e, (main env gl args w fuel).1 = [Event.withCancel 0, Event.newServeMux 0,
      Event.registerCall 0 0 c [DialOption.withInsecure], Event.registerReturn none,
      Event.serveCall l 0, Event.serveReturn (some e), Event.cancel 0,
      Event.fatal e.msg, Event.exit gl.fatalStatus]) := by
  unfold main
  rcases hp : flagParse env args with ⟨fl, rest⟩ | s
  · simp only
    cases fuel with
    | zero => right; left; rfl
    | succ n =>
      rcases run_cases fl w 0 with ⟨_, h1⟩ | ⟨e, _, h1⟩ | ⟨_, _, h1⟩ | ⟨r, _, hs, h1⟩
      · rw [mainLoop_blocked gl fl w n 0 (by rw [h1]), h1]
        right; right; left
        exact ⟨_, rfl⟩
      · rw [mainLoop_error gl fl w n 0 e (by rw [h1]), h1]
        right; right; right; left
        exact ⟨_, e, rfl⟩
      · rw [mainLoop_blocked gl fl w n 0 (by rw [h1]), h1]
        right; right; right; right; left
        exact ⟨_, _, rfl⟩
      · cases r with
        | none => exact absurd hs (hserve _ _)
        | some e =>
          rw [mainLoop_error gl fl w n 0 e (by rw [h1]), h1]
          right; right; right; right; right
          exact ⟨_, _, e, rfl⟩
  · left
    exact ⟨s, rfl⟩

/-- C9: given that the HTTP serve call never returns `nil`, every execution of `main` goes
through the states of the attempt state machine along one of the paths `CONNECTING`,
`CONNECTING, SERVING`, `CONNECTING, FAILED`, `CONNECTING, SERVING, FAILED` (or stays before
`CONNECTING`, or fails during flag parsing): registration is entered at most once, the
serve call at most once, no attempt after the first begins, and nothing that follows the
entry into the server is an entry into registration. -/
theorem c9_at_most_one_attempt (env : FlagEnv) (gl : Glog) (args : List String) (w : World) (fuel : Nat)
    (hserve : ∀ addr h, w.listenAndServe addr h ≠ CallResult.returns none) :
    phases (main env gl args w fuel).1 ∈
      [[], [Phase.failed], [Phase.connecting], [Phase.connecting, Phase.failed],
        [Phase.connecting, Phase.serving],
        [Phase.connecting, Phase.serving, Phase.failed]] ∧
    (main env gl args w fuel).1.countP Event.isRegisterCall ≤ 1 ∧
    (main env gl args w fuel).1.countP Event.isServeCall ≤ 1 ∧
    (∀ j, Event.withCancel (j + 1) ∉ (main env gl args w fuel).1) ∧
    (∀ pre addr h post, (main env gl args w fuel).1 = pre ++ Event.serveCall addr h :: post →
      ∀ ev, ev ∈ post → ev.isRegisterCall = false) := by
  rcases main_single_attempt env gl args w fuel hserve with
    ⟨s, h⟩ | h | ⟨c, h⟩ | ⟨c, e, h⟩ | ⟨c, l, h⟩ | ⟨c, l, e, h⟩ <;> rw [h] <;>
    refine ⟨by simp [phases, phaseOf], by simp [List.countP_cons, Event.isRegisterCall],
      by simp [List.countP_cons, Event.isServeCall], by simp, ?_⟩ <;>
    intro pre addr h0 post hd ev hev <;>
    simp [List.cons_eq_append_iff] at hd
  · obtain ⟨_, _, _, _, _, _, _, _, _, _, rfl⟩ := hd
    simp at hev
  · obtain ⟨_, _, _, _, _, _, _, _, _, _, rfl⟩ := hd
    simp at hev
    rcases hev with rfl | rfl | rfl | rfl <;> rfl

/-- Witness for C9: a server that serves forever, with room for five attempts. -/
theorem c9_at_most_one_attempt_witness :
    phases (main sampleEnv sampleGlog [] servingWorld 5).1 ∈
      [[], [Phase.failed], [Phase.connecting], [Phase.connecting, Phase.failed],
        [Phase.connecting, Phase.serving],
        [Phase.connecting, Phase.serving, Phase.failed]] ∧
    (main sampleEnv sampleGlog [] servingWorld 5).1.countP Event.isRegisterCall ≤ 1 ∧
    (main sampleEnv sampleGlog [] servingWorld 5).1.countP Event.isServeCall ≤ 1 ∧
    (∀ j, Event.withCancel (j + 1) ∉ (main sampleEnv sampleGlog [] servingWorld 5).1) ∧
    (∀ pre addr h post,
      (main sampleEnv sampleGlog [] servingWorld 5).1 = pre ++ Event.serveCall addr h :: post →
      ∀ ev, ev ∈ post → ev.isRegisterCall = false) :=
  c9_at_most_one_attempt sampleEnv sampleGlog [] servingWorld 5 (fun _ _ => by simp [servingWorld])

/-! ## Formatting of the addresses -/

theorem digit_char_eq (d : Nat) (h : d < 10) : Char.ofNat (48 + d) = Nat.digitChar d := by
  interval_cases d <;> rfl

theorem fmtDigits_eq_digits (fuel : Nat) :
    ∀ u acc, 0 < u → u ≤ fuel →
      fmtDigits fuel u acc = (Nat.digits 10 u).reverse.map Nat.digitChar ++ acc := by
  induction fuel with
  | zero => intro u acc h0 h1; omega
  | succ n ih =>
    intro u acc h0 h1
    rw [fmtDigits]
    by_cases hu : 10 ≤ u
    · simp only [hu, if_true]
      have hd : Nat.digits 10 u = u % 10 :: Nat.digits 10 (u / 10) :=
        Nat.digits_def' (by decide) h0
      have hm : u - u / 10 * 10 = u % 10 := by omega
      rw [ih (u / 10) _ (by omega) (by omega), hd, hm,
        digit_char_eq (u % 10) (Nat.mod_lt u (by decide))]
      simp
    · simp only [hu, if_false]
      have hd : Nat.digits 10 u = [u] := Nat.digits_of_lt 10 u (by omega) (by omega)
      rw [hd, digit_char_eq u (by omega)]
      simp

theorem sprintfD_pos (lit : String) (x : Int) (hx : 0 < x) :
    sprintfD lit x = lit ++ decimalRendering x.toNat := by
  unfold sprintfD fmtInteger decimalRendering
  have h1 : ¬ x < 0 := by omega
  have h2 : x.natAbs = x.toNat := by omega
  simp only [h1, if_false, h2]
  rw [fmtDigits_eq_digits x.toNat x.toNat [] (by omega) (le_refl _)]
  simp

theorem decimalRendering_sample :
    decimalRendering 50051 = "50051" ∧ decimalRendering 8081 = "8081" := by
  constructor <;> simp [decimalRendering] <;> rfl

theorem mem_mainLoop (gl : Glog) (fl : Flags) (w : World) (fuel : Nat) :
    ∀ k ev, ev ∈ (mainLoop gl fl w fuel k).1 →
      (∃ j, ev ∈ (run fl w j).1) ∨ (∃ t, ev = Event.fatal t) ∨ (∃ s, ev = Event.exit s) := by
  induction fuel with
  | zero => intro k ev h; simp [mainLoop] at h
  | succ n ih =>
    intro k ev h
    rcases hres : (run fl w k).2 with r | _
    · cases r with
      | none =>
        rw [mainLoop_nil gl fl w n k hres] at h
        simp only [List.mem_append] at h
        rcases h with h | h
        · exact Or.inl ⟨k, h⟩
        · exact ih (k + 1) ev h
      | some e =>
        rw [mainLoop_error gl fl w n k e hres] at h
        simp only [List.mem_append, List.mem_cons, List.mem_singleton] at h
        rcases h with h | h | h | h
        · exact Or.inl ⟨k, h⟩
        · exact Or.inr (Or.inl ⟨_, h⟩)
        · exact Or.inr (Or.inr ⟨_, h⟩)
        · simp at h
    · rw [mainLoop_blocked gl fl w n k hres] at h
      exact Or.inl ⟨k, h⟩

theorem run_has_register (fl : Flags) (w : World) (k : Nat) :
    Event.registerCall k k (connectTo fl) [DialOption.withInsecure] ∈ (run fl w k).1 := by
  rcases run_cases fl w k with ⟨_, h1⟩ | ⟨e, _, h1⟩ | ⟨_, _, h1⟩ | ⟨r, _, _, h1⟩ <;>
    rw [h1] <;> simp

theorem run_addresses (fl : Flags) (w : World) (j : Nat) :
    (∀ c m a o, Event.registerCall c m a o ∈ (run fl w j).1 → a = connectTo fl) ∧
    (∀ a m, Event.serveCall a m ∈ (run fl w j).1 → a = listenAt fl) := by
  constructor
  · intro c m a o hm
    rcases run_cases fl w j with ⟨_, h1⟩ | ⟨e, _, h1⟩ | ⟨_, _, h1⟩ | ⟨r, _, _, h1⟩ <;>
      rw [h1] at hm <;> simp at hm <;> exact hm.2.2.1
  · intro a m hm
    rcases run_cases fl w j with ⟨_, h1⟩ | ⟨e, _, h1⟩ | ⟨_, _, h1⟩ | ⟨r, _, _, h1⟩ <;>
      rw [h1] at hm <;> simp at hm <;> exact hm.1

/-- C2: when the flags hold the positive integers `g` (grpc-port) and `h` (http-port),
every entry into registration, in any attempt, carries the address `localhost:` followed
by the decimal rendering of `g`, and every entry into the HTTP server the address `:`
followed by the decimal rendering of `h`; the first attempt does enter registration with
that address, and the server with that address once registration returned `nil`. -/
theorem c2_addresses_from_ports (env : FlagEnv) (gl : Glog) (args : List String) (w : World)
    (fuel : Nat) (rest : List String) (g h : Int)
    (hparse : flagParse env args = ParseResult.ok { connectPort := g, listenPort := h } rest)
    (hg : 0 < g) (hh : 0 < h) :
    (∀ c m a o, Event.registerCall c m a o ∈ (main env gl args w fuel).1 →
      a = "localhost:" ++ decimalRendering g.toNat) ∧
    (∀ a m, Event.serveCall a m ∈ (main env gl args w fuel).1 →
      a = ":" ++ decimalRendering h.toNat) ∧
    (0 < fuel →
      Event.registerCall 0 0 ("localhost:" ++ decimalRendering g.toNat)
        [DialOption.withInsecure] ∈ (main env gl args w fuel).1) ∧
    (0 < fuel →
      w.register 0 0 ("localhost:" ++ decimalRendering g.toNat) [DialOption.withInsecure] =
        CallResult.returns none →
      Event.serveCall (":" ++ decimalRendering h.toNat) 0 ∈ (main env gl args w fuel).1) := by
  have hc : connectTo { connectPort := g, listenPort := h } =
      "localhost:" ++ decimalRendering g.toNat := sprintfD_pos _ g hg
  have hl : listenAt { connectPort := g, listenPort := h } =
      ":" ++ decimalRendering h.toNat := sprintfD_pos _ h hh
  have hmain : main env gl args w fuel = mainLoop gl { connectPort := g, listenPort := h } w fuel 0 := by
    unfold main
    rw [hparse]
  rw [hmain, ← hc, ← hl]
  refine ⟨?_, ?_, ?_, ?_⟩
  · intro c m a o hm
    rcases mem_mainLoop gl _ w fuel 0 _ hm with ⟨j, hj⟩ | ⟨t, ht⟩ | ⟨s, hs⟩
    · exact (run_addresses _ w j).1 c m a o hj
    · cases ht
    · cases hs
  · intro a m hm
    rcases mem_mainLoop gl _ w fuel 0 _ hm with ⟨j, hj⟩ | ⟨t, ht⟩ | ⟨s, hs⟩
    · exact (run_addresses _ w j).2 a m hj
    · cases ht
    · cases hs
  · intro hf
    obtain ⟨n, rfl⟩ : ∃ n, fuel = n + 1 := ⟨fuel - 1, by omega⟩
    have hin : Event.registerCall 0 0 (connectTo { connectPort := g, listenPort := h })
        [DialOption.withInsecure] ∈ (run { connectPort := g, listenPort := h } w 0).1 :=
      (run_has_register { connectPort := g, listenPort := h } w 0)
    rcases hres : (run { connectPort := g, listenPort := h } w 0).2 with r | _
    · cases r with
      | none => rw [mainLoop_nil gl _ w n 0 hres]; exact List.mem_append_left _ hin
      | some e => rw [mainLoop_error gl _ w n 0 e hres]; exact List.mem_append_left _ hin
    · rw [mainLoop_blocked gl _ w n 0 hres]; exact hin
  · intro hf hreg
    obtain ⟨n, rfl⟩ : ∃ n, fuel = n + 1 := ⟨fuel - 1, by omega⟩
    have hin : Event.serveCall (listenAt { connectPort := g, listenPort := h }) 0 ∈
        (run { connectPort := g, listenPort := h } w 0).1 := by
      rcases run_cases { connectPort := g, listenPort := h } w 0 with
        ⟨h0, h1⟩ | ⟨e, h0, h1⟩ | ⟨h0, _, h1⟩ | ⟨r, h0, _, h1⟩ <;>
        rw [h0] at hreg <;> simp at hreg <;> rw [h1] <;> simp
    rcases hres : (run { connectPort := g, listenPort := h } w 0).2 with r | _
    · cases r with
      | none => rw [mainLoop_nil gl _ w n 0 hres]; exact List.mem_append_left _ hin
      | some e => rw [mainLoop_error gl _ w n 0 e hres]; exact List.mem_append_left _ hin
    · rw [mainLoop_blocked gl _ w n 0 hres]; exact hin

/-- Witness for C2: the ports 9000 and 9090 given on the command line. -/
theorem c2_addresses_from_ports_witness :
    (∀ c m a o, Event.registerCall c m a o ∈
        (main sampleEnv sampleGlog ["--grpc-port=9000", "--http-port=9090"] servingWorld 3).1 →
      a = "localhost:" ++ decimalRendering (9000 : Int).toNat) ∧
    (∀ a m, Event.serveCall a m ∈
        (main sampleEnv sampleGlog ["--grpc-port=9000", "--http-port=9090"] servingWorld 3).1 →
      a = ":" ++ decimalRendering (9090 : Int).toNat) ∧
    (0 < 3 →
      Event.registerCall 0 0 ("localhost:" ++ decimalRendering (9000 : Int).toNat)
        [DialOption.withInsecure] ∈
        (main sampleEnv sampleGlog ["--grpc-port=9000", "--http-port=9090"] servingWorld 3).1) ∧
    (0 < 3 →
      servingWorld.register 0 0 ("localhost:" ++ decimalRendering (9000 : Int).toNat)
        [DialOption.withInsecure] = CallResult.returns none →
      Event.serveCall (":" ++ decimalRendering (9090 : Int).toNat) 0 ∈
        (main sampleEnv sampleGlog ["--grpc-port=9000", "--http-port=9090"] servingWorld 3).1) :=
  c2_addresses_from_ports sampleEnv sampleGlog ["--grpc-port=9000", "--http-port=9090"] servingWorld 3 []
    9000 9090 (by decide) (by decide) (by decide)

/-! ## Flag parsing -/

theorem cutName_spec (name : List Char) :
    name = (cutName name).1 ++
      (match (cutName name).2 with
       | none => []
       | some v => '=' :: v) := by
  have hs : ∀ l : List Char, l = (splitValue l).1 ++
      (match (splitValue l).2 with
       | none => []
       | some v => '=' :: v) := by
    intro l
    induction l with
    | nil => simp [splitValue]
    | cons c cs ih =>
      by_cases hc : c = '='
      · simp [splitValue, hc]
      · simp only [splitValue, hc, if_false, List.cons_append]
        rw [← ih]
  cases name with
  | nil => simp [cutName]
  | cons c cs =>
    simp only [cutName, List.cons_append]
    rw [← hs cs]

theorem takeValue_cases (value : Option (List Char)) (rest : List String) (v : String)
    (rest1 : List String) (h : takeValue value rest = some (v, rest1)) :
    rest1 = rest ∨ rest = v :: rest1 := by
  cases value with
  | some x => simp [takeValue] at h; exact Or.inl h.2.symm
  | none =>
    cases rest with
    | nil => simp [takeValue] at h
    | cons a r => simp [takeValue] at h; exact Or.inr (by rw [h.1, h.2])

theorem takeValue_append (value : Option (List Char)) (rest more : List String) (v : String)
    (rest1 : List String) (h : takeValue value rest = some (v, rest1)) :
    takeValue value (rest ++ more) = some (v, rest1 ++ more) := by
  cases value with
  | some x => simp [takeValue] at h ⊢; exact ⟨h.1, by rw [h.2]⟩
  | none =>
    cases rest with
    | nil => simp [takeValue] at h
    | cons a r => simp [takeValue] at h ⊢; exact ⟨h.1, by rw [h.2]⟩

theorem setFlag_seen (env : FlagEnv) (fl : Flags) (name : String) (value : Option (List Char))
    (rest : List String) (fl1 : Flags) (rest1 : List String)
    (h : setFlag env fl name value rest = ParseStep.seen fl1 rest1) :
    (rest1 = rest ∨ ∃ v, rest = v :: rest1) ∧
    (name ≠ "grpc-port" → fl1.connectPort = fl.connectPort) ∧
    (name ≠ "http-port" → fl1.listenPort = fl.listenPort) ∧
    ∀ more, setFlag env fl name value (rest ++ more) = ParseStep.seen fl1 (rest1 ++ more) := by
  unfold setFlag at h ⊢
  by_cases hg : name = "grpc-port"
  · simp only [hg, if_true] at h ⊢
    rcases ht : takeValue value rest with _ | ⟨v, r⟩
    · simp [ht] at h
    · rcases hp : env.parseInt v with _ | n
      · simp [ht, hp] at h
      · simp [ht, hp] at h
        obtain ⟨rfl, rfl⟩ := h
        refine ⟨?_, by simp, fun _ => rfl, fun more => ?_⟩
        · rcases takeValue_cases _ _ _ _ ht with h1 | h1
          · exact Or.inl h1
          · exact Or.inr ⟨v, h1⟩
        · simp [takeValue_append _ _ more _ _ ht, hp]
  · by_cases hh : name = "http-port"
    · simp only [hg, hh, if_true, if_false] at h ⊢
      rcases ht : takeValue value rest with _ | ⟨v, r⟩
      · simp [ht] at h
      · rcases hp : env.parseInt v with _ | n
        · simp [ht, hp] at h
        · simp [ht, hp] at h
          obtain ⟨rfl, rfl⟩ := h
          refine ⟨?_, fun _ => rfl, by simp, fun more => ?_⟩
          · rcases takeValue_cases _ _ _ _ ht with h1 | h1
            · exact Or.inl h1
            · exact Or.inr ⟨v, h1⟩
          · simp [takeValue_append _ _ more _ _ ht, hp]
    · simp only [hg, hh, if_false] at h ⊢
      rcases hf : env.others.find? (fun o => decide (o.name = name)) with _ | o
      · simp only [hf] at h
        split at h <;> simp at h
      · simp only [hf] at h ⊢
        by_cases hb : o.isBool = true
        · simp only [hb, if_true] at h ⊢
          cases value with
          | some x =>
            simp only at h ⊢
            split at h
            · rename_i hacc
              simp at h
              obtain ⟨rfl, rfl⟩ := h
              exact ⟨Or.inl rfl, fun _ => rfl, fun _ => rfl, fun _ => by simp [hacc]⟩
            · simp at h
          | none =>
            simp only at h ⊢
            split at h
            · rename_i hacc
              simp at h
              obtain ⟨rfl, rfl⟩ := h
              exact ⟨Or.inl rfl, fun _ => rfl, fun _ => rfl, fun _ => by simp [hacc]⟩
            · simp at h
        · simp only [hb] at h ⊢
          rcases ht : takeValue value rest with _ | ⟨v, r⟩
          · simp [ht] at h
          · simp only [ht] at h
            by_cases hacc : o.accepts v = true
            · simp only [hacc, if_true] at h
              simp at h
              obtain ⟨rfl, rfl⟩ := h
              refine ⟨?_, fun _ => rfl, fun _ => rfl, fun more => ?_⟩
              · rcases takeValue_cases _ _ _ _ ht with h1 | h1
                · exact Or.inl h1
                · exact Or.inr ⟨v, h1⟩
              · simp [takeValue_append _ _ more _ _ ht, hacc]
            · simp [hacc] at h

theorem name_gives (f : String) (nm : List Char) (h : String.mk (cutName nm).1 = f) :
    (decide (nm = f.data) || decide (nm.take (f.data.length + 1) = f.data ++ ['='])) = true := by
  have hspec := cutName_spec nm
  have hf : (cutName nm).1 = f.data := by rw [← h]
  rw [hf] at hspec
  rcases hv : (cutName nm).2 with _ | v
  · rw [hv] at hspec
    simp at hspec
    simp [hspec]
  · rw [hv] at hspec
    simp only at hspec
    have h2 : nm.take (f.data.length + 1) = f.data ++ ['='] := by
      have e : nm = (f.data ++ ['=']) ++ v := by rw [hspec]; simp
      rw [e]
      exact List.take_left' (by simp)
    rw [h2]
    simp

theorem givesFlag_of_name (f : String) (c : Char) (tl : List Char)
    (h : String.mk (cutName (if c = '-' then tl else c :: tl)).1 = f) :
    givesFlag f (String.mk ('-' :: c :: tl)) = true := by
  have hn := name_gives f _ h
  by_cases hc : c = '-'
  · subst hc
    simp only [if_true] at hn
    simp only [givesFlag]
    exact hn
  · simp only [hc, if_false] at hn
    unfold givesFlag
    simp only
    split
    · rename_i heq
      simp at heq
      exact absurd heq.1 hc
    · rename_i heq
      simp at heq
      rw [← heq]
      exact hn
    · rename_i hne
      exact absurd rfl (hne (c :: tl))

theorem parseOne_seen (env : FlagEnv) (fl : Flags) (s : String) (rest : List String)
    (fl1 : Flags) (rest1 : List String)
    (h : parseOne env fl (s :: rest) = ParseStep.seen fl1 rest1) :
    (rest1 = rest ∨ ∃ v, rest = v :: rest1) ∧
    (givesFlag "grpc-port" s = false → fl1.connectPort = fl.connectPort) ∧
    (givesFlag "http-port" s = false → fl1.listenPort = fl.listenPort) ∧
    ∀ more, parseOne env fl (s :: (rest ++ more)) = ParseStep.seen fl1 (rest1 ++ more) := by
  obtain ⟨sd⟩ := s
  unfold parseOne at h ⊢
  simp only at h ⊢
  split at h
  · rename_i c tl
    split at h
    · simp at h
    · rename_i hterm
      split at h
      · simp at h
      · rename_i n0 ns hname
        split at h
        · simp at h
        · rename_i hbad
          have hs := setFlag_seen env fl _ _ rest fl1 rest1 h
          refine ⟨hs.1, ?_, ?_, ?_⟩
          · intro hg
            apply hs.2.1
            intro hn
            rw [← hname] at hn
            rw [givesFlag_of_name "grpc-port" c tl hn] at hg
            exact Bool.noConfusion hg
          · intro hg
            apply hs.2.2.1
            intro hn
            rw [← hname] at hn
            rw [givesFlag_of_name "http-port" c tl hn] at hg
            exact Bool.noConfusion hg
          · intro more
            simp only [hterm, hbad, if_false]
            exact hs.2.2.2 more
  · simp at h

theorem parseOne_done (env : FlagEnv) (fl : Flags) (s : String) (rest r : List String)
    (h : parseOne env fl (s :: rest) = ParseStep.done r) :
    (s = "--" ∧ r = rest) ∨ r = s :: rest := by
  obtain ⟨sd⟩ := s
  unfold parseOne at h
  simp only at h
  split at h
  · rename_i c tl
    split at h
    · rename_i hterm
      simp at h
      left
      rw [hterm.1, hterm.2]
      exact ⟨rfl, h.symm⟩
    · split at h
      · simp at h
      · split at h
        · simp at h
        · exfalso
          revert h
          unfold setFlag
          split
          · split
            · simp
            · split <;> simp
          · split
            · split
              · simp
              · split <;> simp
            · split
              · split <;> simp
              · split
                · split
                  · split <;> simp
                  · split <;> simp
                · split
                  · simp
                  · split <;> simp
  · simp at h
    right
    exact h.symm

theorem parseOne_failed_status (env : FlagEnv) (fl : Flags) (args : List String) (st : Nat)
    (h : parseOne env fl args = ParseStep.failed st) : st = 2 ∨ st = env.helpStatus := by
  unfold parseOne at h
  split at h
  · simp at h
  · split at h
    · split at h
      · simp at h
      · split at h
        · simp at h; exact Or.inl h.symm
        · split at h
          · simp at h; exact Or.inl h.symm
          · revert h
            unfold setFlag
            split
            · split
              · simp; intro h; exact Or.inl h.symm
              · split <;> simp
                intro h; exact Or.inl h.symm
            · split
              · split
                · simp; intro h; exact Or.inl h.symm
                · split <;> simp
                  intro h; exact Or.inl h.symm
              · split
                · split <;> simp
                  · intro h; exact Or.inr h.symm
                  · intro h; exact Or.inl h.symm
                · split
                  · split
                    · split <;> simp
                      intro h; exact Or.inl h.symm
                    · split <;> simp
                      intro h; exact Or.inl h.symm
                  · split
                    · simp; intro h; exact Or.inl h.symm
                    · split <;> simp
                      intro h; exact Or.inl h.symm
    · simp at h

theorem parseOne_nil (env : FlagEnv) (fl : Flags) : parseOne env fl [] = ParseStep.done [] := rfl

theorem parseLoop_fuel (env : FlagEnv) (n : Nat) :
    ∀ m fl args, args.length < n → args.length < m →
      parseLoop env n fl args = parseLoop env m fl args := by
  induction n with
  | zero => intro m fl args h; omega
  | succ n ih =>
    intro m fl args hn hm
    obtain ⟨m, rfl⟩ : ∃ k, m = k + 1 := ⟨m - 1, by omega⟩
    rw [parseLoop, parseLoop]
    cases args with
    | nil => rfl
    | cons s rest =>
      rcases hp : parseOne env fl (s :: rest) with ⟨fl1, rest1⟩ | r | st
      · simp only
        have hl : rest1.length ≤ rest.length := by
          rcases (parseOne_seen env fl s rest fl1 rest1 hp).1 with h | ⟨v, h⟩
          · rw [h]
          · rw [h]; simp
        simp only [List.length_cons] at hn hm
        exact ih m fl1 rest1 (by omega) (by omega)
      · rfl
      · rfl

theorem parseLoop_keeps (env : FlagEnv) (n : Nat) :
    ∀ fl args fl1 r, parseLoop env n fl args = ParseResult.ok fl1 r →
      ((∀ a, a ∈ args → givesFlag "grpc-port" a = false) → fl1.connectPort = fl.connectPort) ∧
      ((∀ a, a ∈ args → givesFlag "http-port" a = false) → fl1.listenPort = fl.listenPort) := by
  induction n with
  | zero =>
    intro fl args fl1 r h
    simp [parseLoop] at h
    rw [h.1]
    exact ⟨fun _ => rfl, fun _ => rfl⟩
  | succ n ih =>
    intro fl args fl1 r h
    rw [parseLoop] at h
    cases args with
    | nil =>
      simp [parseOne_nil] at h
      rw [h.1]
      exact ⟨fun _ => rfl, fun _ => rfl⟩
    | cons s rest =>
      rcases hp : parseOne env fl (s :: rest) with ⟨fl2, rest2⟩ | r2 | st
      · rw [hp] at h
        simp only at h
        have hs := parseOne_seen env fl s rest fl2 rest2 hp
        have hsub : ∀ a, a ∈ rest2 → a ∈ s :: rest := by
          intro a ha
          rcases hs.1 with h1 | ⟨v, h1⟩
          · rw [h1] at ha; exact List.mem_cons_of_mem _ ha
          · rw [h1]; exact List.mem_cons_of_mem _ (List.mem_cons_of_mem _ ha)
        have hi := ih fl2 rest2 fl1 r h
        constructor
        · intro hall
          rw [hi.1 (fun a ha => hall a (hsub a ha)), hs.2.1 (hall s (List.mem_cons_self _ _))]
        · intro hall
          rw [hi.2 (fun a ha => hall a (hsub a ha)), hs.2.2.1 (hall s (List.mem_cons_self _ _))]
      · rw [hp] at h
        simp at h
        rw [h.1]
        exact ⟨fun _ => rfl, fun _ => rfl⟩
      · rw [hp] at h
        simp at h

theorem parseLoop_status (env : FlagEnv) (n : Nat) :
    ∀ fl args st, parseLoop env n fl args = ParseResult.exit st →
      st = 2 ∨ st = env.helpStatus := by
  induction n with
  | zero => intro fl args st h; simp [parseLoop] at h
  | succ n ih =>
    intro fl args st h
    rw [parseLoop] at h
    rcases hp : parseOne env fl args with ⟨fl2, rest2⟩ | r2 | st2
    · rw [hp] at h
      exact ih fl2 rest2 st h
    · rw [hp] at h
      simp at h
    · rw [hp] at h
      simp at h
      rw [← h]
      exact parseOne_failed_status env fl args st2 hp

theorem parseLoop_append (env : FlagEnv) (n : Nat) :
    ∀ fl pre fl1, pre.length < n → parseLoop env n fl pre = ParseResult.ok fl1 [] →
      "--" ∉ pre → ∀ more m, (pre ++ more).length < m →
        parseLoop env m fl (pre ++ more) = parseLoop env m fl1 more := by
  induction n with
  | zero => intro fl pre fl1 h; omega
  | succ n ih =>
    intro fl pre fl1 hlen h hterm more m hm
    rw [parseLoop] at h
    cases pre with
    | nil =>
      simp [parseOne_nil] at h
      rw [h]
      rfl
    | cons s rest =>
      rcases hp : parseOne env fl (s :: rest) with ⟨fl2, rest2⟩ | r2 | st
      · rw [hp] at h
        simp only at h
        have hs := parseOne_seen env fl s rest fl2 rest2 hp
        have hl : rest2.length ≤ rest.length := by
          rcases hs.1 with h1 | ⟨v, h1⟩
          · rw [h1]
          · rw [h1]; simp
        have hsub : ∀ a, a ∈ rest2 → a ∈ s :: rest := by
          intro a ha
          rcases hs.1 with h1 | ⟨v, h1⟩
          · rw [h1] at ha; exact List.mem_cons_of_mem _ ha
          · rw [h1]; exact List.mem_cons_of_mem _ (List.mem_cons_of_mem _ ha)
        obtain ⟨m, rfl⟩ : ∃ k, m = k + 1 := ⟨m - 1, by omega⟩
        simp only [List.length_cons, List.length_append, List.cons_append] at hlen hm
        rw [List.cons_append, parseLoop, hs.2.2.2 more]
        simp only
        rw [ih fl2 rest2 fl1 (by omega) h (fun hc => hterm (hsub _ hc)) more m
          (by simp only [List.length_append]; omega)]
        exact parseLoop_fuel env m (m + 1) fl1 more (by omega) (by omega)
      · rw [hp] at h
        simp at h
        rcases parseOne_done env fl s rest r2 hp with ⟨h1, _⟩ | h1
        · exact absurd (by rw [h1]; exact List.mem_cons_self _ _) hterm
        · rw [h1] at h
          simp at h
      · rw [hp] at h
        simp at h

theorem parseOne_bad_value (env : FlagEnv) (fl : Flags) (post : List String)
    (dashes name v : String) (hd : dashes = "-" ∨ dashes = "--")
    (hn : name = "grpc-port" ∨ name = "http-port") (hv : env.parseInt v = none) :
    parseOne env fl ((dashes ++ name ++ "=" ++ v) :: post) = ParseStep.failed 2 ∧
    parseOne env fl ((dashes ++ name) :: v :: post) = ParseStep.failed 2 := by
  obtain ⟨vd⟩ := v
  rcases hd with rfl | rfl <;> rcases hn with rfl | rfl
  · constructor
    · have e : parseOne env fl (("-" ++ "grpc-port" ++ "=" ++ String.mk vd) :: post) =
          (match env.parseInt (String.mk vd) with
           | none => ParseStep.failed 2
           | some n => ParseStep.seen { fl with connectPort := n } post) := rfl
      rw [e, hv]
    · have e : parseOne env fl (("-" ++ "grpc-port") :: String.mk vd :: post) =
          (match env.parseInt (String.mk vd) with
           | none => ParseStep.failed 2
           | some n => ParseStep.seen { fl with connectPort := n } post) := rfl
      rw [e, hv]
  · constructor
    · have e : parseOne env fl (("-" ++ "http-port" ++ "=" ++ String.mk vd) :: post) =
          (match env.parseInt (String.mk vd) with
           | none => ParseStep.failed 2
           | some n => ParseStep.seen { fl with listenPort := n } post) := rfl
      rw [e, hv]
    · have e : parseOne env fl (("-" ++ "http-port") :: String.mk vd :: post) =
          (match env.parseInt (String.mk vd) with
           | none => ParseStep.failed 2
           | some n => ParseStep.seen { fl with listenPort := n } post) := rfl
      rw [e, hv]
  · constructor
    · have e : parseOne env fl (("--" ++ "grpc-port" ++ "=" ++ String.mk vd) :: post) =
          (match env.parseInt (String.mk vd) with
           | none => ParseStep.failed 2
           | some n => ParseStep.seen { fl with connectPort := n } post) := rfl
      rw [e, hv]
    · have e : parseOne env fl (("--" ++ "grpc-port") :: String.mk vd :: post) =
          (match env.parseInt (String.mk vd) with
           | none => ParseStep.failed 2
           | some n => ParseStep.seen { fl with connectPort := n } post) := rfl
      rw [e, hv]
  · constructor
    · have e : parseOne env fl (("--" ++ "http-port" ++ "=" ++ String.mk vd) :: post) =
          (match env.parseInt (String.mk vd) with
           | none => ParseStep.failed 2
           | some n => ParseStep.seen { fl with listenPort := n } post) := rfl
      rw [e, hv]
    · have e : parseOne env fl (("--" ++ "http-port") :: String.mk vd :: post) =
          (match env.parseInt (String.mk vd) with
           | none => ParseStep.failed 2
           | some n => ParseStep.seen { fl with listenPort := n } post) := rfl
      rw [e, hv]

/-- C4: when the flag parser, having consumed the arguments before it as flags, comes to
a `grpc-port` or `http-port` flag (with one or two dashes, the value attached with `=` or
given as the next argument) whose value is not an integer, the process exits with status 2
inside `flag.Parse`: the execution consists of that exit alone, so `run` is never entered
and neither registration nor the serve call takes place. -/
theorem c4_malformed_port_fails_before_run (env : FlagEnv) (gl : Glog) (pre post : List String)
    (fl1 : Flags) (w : World) (fuel : Nat) (dashes name v : String)
    (hd : dashes = "-" ∨ dashes = "--") (hn : name = "grpc-port" ∨ name = "http-port")
    (hv : env.parseInt v = none)
    (hpre : flagParse env pre = ParseResult.ok fl1 []) (hterm : "--" ∉ pre) :
    main env gl (pre ++ [dashes ++ name ++ "=" ++ v] ++ post) w fuel =
      ([Event.exit 2], Outcome.exited 2) ∧
    main env gl (pre ++ [dashes ++ name, v] ++ post) w fuel =
      ([Event.exit 2], Outcome.exited 2) := by
  have hbad := parseOne_bad_value env fl1 post dashes name v hd hn hv
  have key : ∀ more, parseOne env fl1 more = ParseStep.failed 2 →
      main env gl (pre ++ more) w fuel = ([Event.exit 2], Outcome.exited 2) := by
    intro more hm
    unfold main flagParse
    rw [parseLoop_append env (pre.length + 1) defaultFlags pre fl1 (by omega) hpre hterm more
      ((pre ++ more).length + 1) (by omega)]
    rw [parseLoop, hm]
  constructor
  · rw [List.append_assoc]
    exact key _ hbad.1
  · rw [List.append_assoc]
    exact key _ hbad.2

/-- Witness for C4: `--grpc-port=abc`, alone and after a well-formed flag. -/
theorem c4_malformed_port_fails_before_run_witness :
    main sampleEnv sampleGlog (["--http-port=9090"] ++ ["--" ++ "grpc-port" ++ "=" ++ "abc"] ++ ["rest"])
        servingWorld 3 = ([Event.exit 2], Outcome.exited 2) ∧
    main sampleEnv sampleGlog (["--http-port=9090"] ++ ["--" ++ "grpc-port", "abc"] ++ ["rest"])
        servingWorld 3 = ([Event.exit 2], Outcome.exited 2) :=
  c4_malformed_port_fails_before_run sampleEnv sampleGlog ["--http-port=9090"] ["rest"]
    { connectPort := 50051, listenPort := 9090 } servingWorld 3 "--" "grpc-port" "abc"
    (Or.inr rfl) (Or.inl rfl) (by decide) (by decide) (by decide)

theorem mainLoop_first_events (gl : Glog) (fl : Flags) (w : World) (fuel : Nat) :
    (∃ post, (mainLoop gl fl w (fuel + 1) 0).1 =
      [Event.withCancel 0, Event.newServeMux 0,
        Event.registerCall 0 0 (connectTo fl) [DialOption.withInsecure]] ++ post) ∧
    (w.register 0 0 (connectTo fl) [DialOption.withInsecure] = CallResult.returns none →
      ∃ post, (mainLoop gl fl w (fuel + 1) 0).1 =
        [Event.withCancel 0, Event.newServeMux 0,
          Event.registerCall 0 0 (connectTo fl) [DialOption.withInsecure],
          Event.registerReturn none, Event.serveCall (listenAt fl) 0] ++ post) := by
  rcases run_cases fl w 0 with ⟨h0, h1⟩ | ⟨e, h0, h1⟩ | ⟨h0, _, h1⟩ | ⟨r, h0, _, h1⟩
  · rw [mainLoop_blocked gl fl w fuel 0 (by rw [h1]), h1]
    exact ⟨⟨_, rfl⟩, fun h => by rw [h0] at h; simp at h⟩
  · rw [mainLoop_error gl fl w fuel 0 e (by rw [h1]), h1]
    exact ⟨⟨_, rfl⟩, fun h => by rw [h0] at h; simp at h⟩
  · rw [mainLoop_blocked gl fl w fuel 0 (by rw [h1]), h1]
    exact ⟨⟨_, rfl⟩, fun _ => ⟨_, rfl⟩⟩
  · cases r with
    | none =>
      rw [mainLoop_nil gl fl w fuel 0 (by rw [h1]), h1]
      exact ⟨⟨_, rfl⟩, fun _ => ⟨_, rfl⟩⟩
    | some e =>
      rw [mainLoop_error gl fl w fuel 0 e (by rw [h1]), h1]
      exact ⟨⟨_, rfl⟩, fun _ => ⟨_, rfl⟩⟩

/-- C5: without arguments the flags keep their defaults 50051 and 8081: the first attempt
enters registration with exactly `localhost:50051` and, once registration returned `nil`,
enters the HTTP server with exactly `:8081`.  For any argument list that parses, a port
flag that no argument names keeps its default. -/
theorem c5_default_ports (env : FlagEnv) (gl : Glog) (w : World) (fuel : Nat) :
    flagParse env [] = ParseResult.ok { connectPort := 50051, listenPort := 8081 } [] ∧
    (∃ post, (main env gl [] w (fuel + 1)).1 =
      [Event.withCancel 0, Event.newServeMux 0,
        Event.registerCall 0 0 "localhost:50051" [DialOption.withInsecure]] ++ post) ∧
    (w.register 0 0 "localhost:50051" [DialOption.withInsecure] = CallResult.returns none →
      ∃ post, (main env gl [] w (fuel + 1)).1 =
        [Event.withCancel 0, Event.newServeMux 0,
          Event.registerCall 0 0 "localhost:50051" [DialOption.withInsecure],
          Event.registerReturn none, Event.serveCall ":8081" 0] ++ post) ∧
    (∀ args fl rest, flagParse env args = ParseResult.ok fl rest →
      ((∀ a, a ∈ args → givesFlag "grpc-port" a = false) → fl.connectPort = 50051) ∧
      ((∀ a, a ∈ args → givesFlag "http-port" a = false) → fl.listenPort = 8081)) := by
  have hc : connectTo defaultFlags = "localhost:50051" := by decide
  have hl : listenAt defaultFlags = ":8081" := by decide
  have hm : main env gl [] w (fuel + 1) = mainLoop gl defaultFlags w (fuel + 1) 0 := rfl
  have hf := mainLoop_first_events gl defaultFlags w fuel
  rw [hc, hl] at hf
  refine ⟨rfl, ?_, ?_, ?_⟩
  · rw [hm]
    exact hf.1
  · rw [hm]
    exact hf.2
  · intro args fl rest hp
    exact parseLoop_keeps env _ defaultFlags args fl rest hp

/-- Witness for C5: a server that serves forever, and a command line that gives only the
gRPC port. -/
theorem c5_default_ports_witness :
    (∃ post, (main sampleEnv sampleGlog [] servingWorld (0 + 1)).1 =
      [Event.withCancel 0, Event.newServeMux 0,
        Event.registerCall 0 0 "localhost:50051" [DialOption.withInsecure],
        Event.registerReturn none, Event.serveCall ":8081" 0] ++ post) ∧
    (∀ a, a ∈ ["--grpc-port=9000"] → givesFlag "http-port" a = false) ∧
    ({ connectPort := 9000, listenPort := 8081 } : Flags).listenPort = 8081 :=
  ⟨(c5_default_ports sampleEnv sampleGlog servingWorld 0).2.2.1 (by decide), by decide,
    ((c5_default_ports sampleEnv sampleGlog servingWorld 0).2.2.2 ["--grpc-port=9000"]
      { connectPort := 9000, listenPort := 8081 } [] (by decide)).2 (by decide)⟩

theorem mainLoop_outcome (gl : Glog) (fl : Flags) (w : World) (fuel : Nat) :
    ∀ k, (mainLoop gl fl w fuel k).2 ≠ Outcome.returned ∧
      ∀ s, (mainLoop gl fl w fuel k).2 = Outcome.exited s →
        s = gl.fatalStatus ∧ ∃ j e, (run fl w (k + j)).2 = RunResult.returned (some e) ∧
          (mainLoop gl fl w fuel k).1 =
            attemptsTrace fl w k j ++ (run fl w (k + j)).1 ++
              [Event.fatal e.msg, Event.exit gl.fatalStatus] := by
  induction fuel with
  | zero => intro k; simp [mainLoop]
  | succ n ih =>
    intro k
    rcases hres : (run fl w k).2 with r | _
    · cases r with
      | none =>
        rw [mainLoop_nil gl fl w n k hres]
        refine ⟨(ih (k + 1)).1, fun s hs => ?_⟩
        obtain ⟨h1, j, e, hj, htr⟩ := (ih (k + 1)).2 s hs
        refine ⟨h1, j + 1, e, ?_, ?_⟩
        · rw [← hj]; congr 2; omega
        · simp only
          rw [htr]
          have e1 : k + (j + 1) = k + 1 + j := by omega
          simp [attemptsTrace, e1]
      | some e =>
        rw [mainLoop_error gl fl w n k e hres]
        refine ⟨by simp, fun s hs => ?_⟩
        simp at hs
        exact ⟨hs.symm, 0, e, hres, by simp [attemptsTrace]⟩
    · rw [mainLoop_blocked gl fl w n k hres]
      simp

/-- Counterexample for C10: on `--grpc-port=abc` the process terminates with status 2
inside flag parsing; nothing is written by the fatal log. -/
theorem c10_counterexample :
    main sampleEnv sampleGlog ["--grpc-port=abc"] servingWorld 1 = ([Event.exit 2], Outcome.exited 2) ∧
    ¬ ∃ t, Event.fatal t ∈ (main sampleEnv sampleGlog ["--grpc-port=abc"] servingWorld 1).1 := by
  refine ⟨by decide, ?_⟩
  rintro ⟨t, h⟩
  have e : main sampleEnv sampleGlog ["--grpc-port=abc"] servingWorld 1 =
      ([Event.exit 2], Outcome.exited 2) := by decide
  rw [e] at h
  simp at h

/-- C10, amended: the process has two abnormal termination paths.  Either it exits inside
flag parsing, before any attempt, with status 2 or with the help status of the `flag`
package; or an attempt returned an error, and the execution ends with the fatal log line
for that error and the exit with the exit status of `glog.Fatal`, which is not zero.
`main` never returns normally, and when the help status is not zero no execution
terminates with status zero. -/
theorem c10_termination_paths (env : FlagEnv) (gl : Glog) (args : List String) (w : World) (fuel : Nat) :
    (main env gl args w fuel).2 ≠ Outcome.returned ∧
    ∀ s, (main env gl args w fuel).2 = Outcome.exited s →
      ((flagParse env args = ParseResult.exit s ∧ (main env gl args w fuel).1 = [Event.exit s] ∧
          (s = 2 ∨ s = env.helpStatus)) ∨
        (s = gl.fatalStatus ∧ s ≠ 0 ∧
          ∃ fl rest k e, flagParse env args = ParseResult.ok fl rest ∧
          (run fl w k).2 = RunResult.returned (some e) ∧
          (main env gl args w fuel).1 =
            attemptsTrace fl w 0 k ++ (run fl w k).1 ++
              [Event.fatal e.msg, Event.exit gl.fatalStatus])) ∧
      (env.helpStatus ≠ 0 → s ≠ 0) := by
  unfold main
  rcases hp : flagParse env args with ⟨fl, rest⟩ | st
  · simp only
    have ho := mainLoop_outcome gl fl w fuel 0
    refine ⟨ho.1, fun s hs => ?_⟩
    obtain ⟨h1, j, e, hj, htr⟩ := ho.2 s hs
    rw [Nat.zero_add] at hj htr
    have hne : s ≠ 0 := by rw [h1]; exact gl.fatalStatus_ne_zero
    refine ⟨Or.inr ⟨h1, hne, fl, rest, j, e, rfl, hj, htr⟩, fun _ => hne⟩
  · simp only
    have hst := parseLoop_status env _ defaultFlags args st hp
    refine ⟨by simp, fun s hs => ?_⟩
    simp at hs
    subst hs
    refine ⟨Or.inl ⟨rfl, rfl, hst⟩, fun hh => ?_⟩
    rcases hst with h | h
    · omega
    · rw [h]; exact hh

/-- Witness for C10 (amended): a refused registration ends the process on the fatal path,
with the non-zero status of `glog.Fatal`. -/
theorem c10_termination_paths_witness :
    ((flagParse sampleEnv [] = ParseResult.exit 255 ∧
        (main sampleEnv sampleGlog [] refusingWorld 1).1 = [Event.exit 255] ∧
        (255 = 2 ∨ 255 = sampleEnv.helpStatus)) ∨
      (255 = sampleGlog.fatalStatus ∧ 255 ≠ 0 ∧
        ∃ fl rest k e, flagParse sampleEnv [] = ParseResult.ok fl rest ∧
        (run fl refusingWorld k).2 = RunResult.returned (some e) ∧
        (main sampleEnv sampleGlog [] refusingWorld 1).1 =
          attemptsTrace fl refusingWorld 0 k ++ (run fl refusingWorld k).1 ++
            [Event.fatal e.msg, Event.exit sampleGlog.fatalStatus])) ∧
    (sampleEnv.helpStatus ≠ 0 → 255 ≠ 0) :=
  (c10_termination_paths sampleEnv sampleGlog [] refusingWorld 1).2 255 (by decide)

end Proxy
